import Mathlib

/-!
Shallow embedding of the Gaussian-mixture-model EM implementation from the
notebook "Kmeans & Gaussian Mixture Model.ipynb" (the from-scratch GMM cell
and the coin-flip EM cell), together with theorems settling the frozen
claims about the natural-language specification.

Modelling conventions:
- NumPy float arrays become real-valued functions/matrices over Fin types;
  real arithmetic stands in for IEEE floating point, with the Lean
  convention x / 0 = 0 standing in for the NaN/inf that NumPy produces on
  division by zero and on the square root of a negative number.
- The NumPy global random generator is modelled by an explicit state
  argument (a natural number) threaded into each function that touches it,
  together with an abstract selection function cf : state -> n -> k ->
  List of indices standing for np.random.choice(n, k, replace=False)
  evaluated in that state. The source line np.random.seed(42) becomes the
  replacement of the incoming state by the literal 42.
- The Python for-loops of the drivers become fuel recursion; each driver
  additionally returns the number of loop iterations it executed, which
  instruments the trip count of the source for-loop.
-/

open BigOperators Matrix Real

namespace GmmEm

/-- Mixture-model state: the triple (weights, means, covariances) that the
source passes between initialize_parameters, e_step and m_step. -/
@[ext]
structure GmmParams (D K : ℕ) where
  weights : Fin K → ℝ
  means : Fin K → Fin D → ℝ
  covariances : Fin K → Matrix (Fin D) (Fin D) ℝ

/-- Source multivariate_gaussian(x, mean, cov):
k = len(mean); denom = sqrt((2*pi)**k * det(cov));
diff = x - mean; numerator = exp(-0.5 * diff.T @ inv(cov) @ diff);
return numerator / denom.  No guard on the sign of the determinant. -/
noncomputable def multivariate_gaussian {D : ℕ} (x mean : Fin D → ℝ)
    (cov : Matrix (Fin D) (Fin D) ℝ) : ℝ :=
  let denom := Real.sqrt ((2 * Real.pi) ^ D * cov.det)
  let diff := x - mean
  let numerator := Real.exp (-(1 / 2) * (diff ⬝ᵥ (cov⁻¹ *ᵥ diff)))
  numerator / denom

/-- Source np.cov(data, rowvar=False): the sample covariance of the columns
of data, with the NumPy default ddof = 1 (division by N - 1). -/
noncomputable def npCov {N D : ℕ} (data : Matrix (Fin N) (Fin D) ℝ) :
    Matrix (Fin D) (Fin D) ℝ :=
  let colMean : Fin D → ℝ := fun d => (∑ n, data n d) / N
  fun i j => (∑ n, (data n i - colMean i) * (data n j - colMean j)) / ((N : ℝ) - 1)

/-- Source initialize_parameters(data, num_components):
np.random.seed(42);
means = data[np.random.choice(data.shape[0], num_components, replace=False)];
covariance = [np.cov(data, rowvar=False)] * num_components;
weights = np.ones(num_components) / num_components.
The argument state is the incoming NumPy global RNG state; the body discards
it and reseeds with the literal 42 before drawing the indices through cf. -/
noncomputable def initialize_parameters (cf : ℕ → ℕ → ℕ → List ℕ) (state : ℕ)
    {N D : ℕ} (data : Matrix (Fin N) (Fin D) ℝ) (K : ℕ) : GmmParams D K :=
  let seeded : ℕ := 42
  let idx : List ℕ := cf seeded N K
  { weights := fun _ => 1 / (K : ℝ)
    means := fun k d =>
      if h : idx.getD k.val 0 < N then data ⟨idx.getD k.val 0, h⟩ d else 0
    covariances := fun _ => npCov data }

/-- Source e_step(data, weights, means, covariance, num_components):
prior_pi[point, i] = weights[i] * multivariate_gaussian(data[point], means[i],
covariance[i]); then prior_pi /= prior_pi.sum(1)[:, np.newaxis]. -/
noncomputable def e_step {N D K : ℕ} (data : Matrix (Fin N) (Fin D) ℝ)
    (weights : Fin K → ℝ) (means : Fin K → Fin D → ℝ)
    (covariance : Fin K → Matrix (Fin D) (Fin D) ℝ) :
    Matrix (Fin N) (Fin K) ℝ :=
  let prior_pi : Matrix (Fin N) (Fin K) ℝ := fun n i =>
    weights i * multivariate_gaussian (data n) (means i) (covariance i)
  fun n i => prior_pi n i / ∑ j, prior_pi n j

/-- Source m_step(data, prior_pi, num_components):
n_k = prior_pi.sum(axis=0); weights = n_k / data.shape[0];
means = prior_pi.T @ data / n_k[:, None];
for each i: diff_mat = data - means[i];
weighted_diff = diff_mat.T * prior_pi[:, i];
covariance[i] = weighted_diff @ diff_mat / n_k[i].
The covariance for component i therefore uses the freshly computed means[i].
There is no guard on n_k[i] = 0. -/
noncomputable def m_step {N D K : ℕ} (data : Matrix (Fin N) (Fin D) ℝ)
    (prior_pi : Matrix (Fin N) (Fin K) ℝ) : GmmParams D K :=
  let n_k : Fin K → ℝ := fun k => ∑ n, prior_pi n k
  let weights : Fin K → ℝ := fun k => n_k k / N
  let means : Fin K → Fin D → ℝ := fun k d => (∑ n, prior_pi n k * data n d) / n_k k
  let covariance : Fin K → Matrix (Fin D) (Fin D) ℝ := fun i =>
    let diff_mat : Matrix (Fin N) (Fin D) ℝ := fun n d => data n d - means i d
    let weighted_diff : Matrix (Fin D) (Fin N) ℝ := fun d n => diff_mat n d * prior_pi n i
    fun a b => (∑ n, weighted_diff a n * diff_mat n b) / n_k i
  { weights := weights, means := means, covariances := covariance }

/-- One loop body of gmm_step: prior_pi = e_step(...); then m_step. -/
noncomputable def emStep {N D K : ℕ} (data : Matrix (Fin N) (Fin D) ℝ)
    (p : GmmParams D K) : GmmParams D K :=
  m_step data (e_step data p.weights p.means p.covariances)

/-- Fuel recursion for the source loop "for iteration in range(max_iters)"
inside gmm_step.  The loop body has no break or convergence test, so the
second component counts the iterations actually executed. -/
noncomputable def gmm_loop {N D K : ℕ} (data : Matrix (Fin N) (Fin D) ℝ) :
    ℕ → GmmParams D K → GmmParams D K × ℕ
  | 0, p => (p, 0)
  | m + 1, p =>
    let r := gmm_loop data m (emStep data p)
    (r.1, r.2 + 1)

/-- Source gmm_step(data, num_components, max_iters=100):
means, covariances, weights = initialize_parameters(data, num_components);
for iteration in range(max_iters): e_step then m_step; return the params.
No input validation, no tolerance parameter, no convergence check.
The second component is the executed iteration count. -/
noncomputable def gmm_step (cf : ℕ → ℕ → ℕ → List ℕ) (state : ℕ)
    {N D : ℕ} (data : Matrix (Fin N) (Fin D) ℝ) (K maxIters : ℕ) :
    GmmParams D K × ℕ :=
  gmm_loop data maxIters (initialize_parameters cf state data K)

/-! The coin-flip EM driver from the last code cell.  The flip outcomes are
0/1 integers (loaded with dtype=int in the source), so the data matrix is
over ℕ; all statistics are real-valued. -/

/-- Source binom.pmf(k, n, p) at an integer count k: C(n, k) p^k (1-p)^(n-k). -/
noncomputable def binom_pmf (n k : ℕ) (p : ℝ) : ℝ :=
  (n.choose k : ℝ) * p ^ k * (1 - p) ^ (n - k)

/-- Source num_heads = np.sum(data, axis=1) for one row of flips. -/
def num_heads {R F : ℕ} (data : Matrix (Fin R) (Fin F) ℕ) (r : Fin R) : ℕ :=
  ∑ f, data r f

/-- Source compute_responsibilities(data, num_flips, bias, prior):
likelihoods = binom.pmf(num_heads, num_flips, bias);
weighted = likelihoods * prior; normalized = weighted / weighted.sum(1). -/
noncomputable def compute_responsibilities {R F C : ℕ}
    (data : Matrix (Fin R) (Fin F) ℕ) (num_flips : ℕ)
    (bias prior : Fin C → ℝ) : Matrix (Fin R) (Fin C) ℝ :=
  let weighted : Matrix (Fin R) (Fin C) ℝ := fun r c =>
    binom_pmf num_flips (num_heads data r) (bias c) * prior c
  fun r c => weighted r c / ∑ j, weighted r j

/-- Source update_parameters(data, num_flips, responsibilities):
updated_biases = responsibilities.T @ num_heads / (num_flips *
responsibilities.sum(0)); updated_priors = responsibilities.mean(0). -/
noncomputable def update_parameters {R F C : ℕ}
    (data : Matrix (Fin R) (Fin F) ℕ) (num_flips : ℕ)
    (responsibilities : Matrix (Fin R) (Fin C) ℝ) :
    (Fin C → ℝ) × (Fin C → ℝ) :=
  (fun c => (∑ r, responsibilities r c * (num_heads data r : ℝ)) /
      ((num_flips : ℝ) * ∑ r, responsibilities r c),
   fun c => (∑ r, responsibilities r c) / R)

/-- Source log_likelihood(data, num_flips, bias, prior):
sum over rows of log(sum over coins of pmf * prior). -/
noncomputable def log_likelihood {R F C : ℕ} (data : Matrix (Fin R) (Fin F) ℕ)
    (num_flips : ℕ) (bias prior : Fin C → ℝ) : ℝ :=
  ∑ r, Real.log (∑ c, binom_pmf num_flips (num_heads data r) (bias c) * prior c)

/-- One loop body of coin_probabilities: responsibilities = E-step;
biases, priors = M-step. -/
noncomputable def coinStep {R F C : ℕ} (data : Matrix (Fin R) (Fin F) ℕ)
    (num_flips : ℕ) (bp : (Fin C → ℝ) × (Fin C → ℝ)) :
    (Fin C → ℝ) × (Fin C → ℝ) :=
  update_parameters data num_flips (compute_responsibilities data num_flips bp.1 bp.2)

open scoped Classical in
/-- Fuel recursion for the loop of coin_probabilities.  The prev argument is
previous_log_likelihood, with none standing for the initial -np.inf (against
which the absolute difference is infinite, so the break never fires on a
missing previous value).  After the parameter update the loop breaks when
the absolute difference of successive log-likelihoods is below tolerance;
the second component counts the iterations executed. -/
noncomputable def coin_loop {R F C : ℕ} (data : Matrix (Fin R) (Fin F) ℕ)
    (num_flips : ℕ) (tolerance : ℝ) :
    ℕ → (Fin C → ℝ) × (Fin C → ℝ) → Option ℝ →
      ((Fin C → ℝ) × (Fin C → ℝ)) × ℕ
  | 0, bp, _ => (bp, 0)
  | m + 1, bp, prev =>
    let bp := coinStep data num_flips bp
    let current := log_likelihood data num_flips bp.1 bp.2
    if prev.elim False (fun q => |current - q| < tolerance) then (bp, 1)
    else
      let r := coin_loop data num_flips tolerance m bp (some current)
      (r.1, r.2 + 1)

/-- Source coin_probabilities(data, num_flips, num_coins, max_iter=100,
tolerance=1e-4): biases = np.random.rand(num_coins) drawn from the ambient
(never reseeded) global RNG, abstracted as rand applied to the incoming
state; priors = np.array([0.33, 0.33, 0.33]), a hard-coded 3-vector, so the
embedding fixes num_coins = 3; then the E/M loop with the tolerance break.
The second component is the executed iteration count. -/
noncomputable def coin_probabilities {R F : ℕ} (rand : ℕ → Fin 3 → ℝ)
    (state : ℕ) (data : Matrix (Fin R) (Fin F) ℕ) (num_flips : ℕ)
    (max_iter : ℕ) (tolerance : ℝ) : ((Fin 3 → ℝ) × (Fin 3 → ℝ)) × ℕ :=
  let biases := rand state
  let priors : Fin 3 → ℝ := fun _ => 0.33
  coin_loop data num_flips tolerance max_iter (biases, priors) none

/-! Error taxonomy of the specification, and the spec-side (claim-side)
evaluators used to compare the unguarded source against the error behavior
the specification asserts.  The source functions themselves have no error
path, which the refutation theorems below make concrete. -/

/-- Error taxonomy named by the specification. -/
inductive GmmError where
  | invalidInput : GmmError
  | numericalDegeneracy : GmmError
  | componentCollapse : GmmError

/-- Spec-side density evaluator, following the spec words: requires a
positive determinant and fails with NumericalDegeneracy when det <= 0,
otherwise returns (2 pi)^(-D/2) det^(-1/2) exp(-(1/2) Mahalanobis). -/
noncomputable def density_spec {D : ℕ} (x mean : Fin D → ℝ)
    (cov : Matrix (Fin D) (Fin D) ℝ) : Except GmmError ℝ :=
  if cov.det ≤ 0 then Except.error GmmError.numericalDegeneracy
  else Except.ok ((2 * Real.pi) ^ (-(D : ℝ) / 2) * cov.det ^ (-(1 : ℝ) / 2) *
    Real.exp (-(1 / 2) * ((x - mean) ⬝ᵥ (cov⁻¹ *ᵥ (x - mean)))))

/-- The source density evaluator viewed in the error monad: the source has
no failure path, so every call returns ok. -/
noncomputable def multivariate_gaussianE {D : ℕ} (x mean : Fin D → ℝ)
    (cov : Matrix (Fin D) (Fin D) ℝ) : Except GmmError ℝ :=
  Except.ok (multivariate_gaussian x mean cov)

/-- Spec-side M-step, following the spec words for the fail policy: if some
effective count n_k is zero the update fails with ComponentCollapse,
otherwise it returns the source update. -/
noncomputable def m_step_spec {N D K : ℕ} (data : Matrix (Fin N) (Fin D) ℝ)
    (prior_pi : Matrix (Fin N) (Fin K) ℝ) : Except GmmError (GmmParams D K) :=
  if ∃ k : Fin K, (∑ n, prior_pi n k) = 0 then Except.error GmmError.componentCollapse
  else Except.ok (m_step data prior_pi)

/-- The source M-step viewed in the error monad: the source has no failure
path, so every call returns ok. -/
noncomputable def m_stepE {N D K : ℕ} (data : Matrix (Fin N) (Fin D) ℝ)
    (prior_pi : Matrix (Fin N) (Fin K) ℝ) : Except GmmError (GmmParams D K) :=
  Except.ok (m_step data prior_pi)

/-- Spec-side claim that a seed is an explicit caller argument: the same
initializer body as the source, but drawing the choice indices with the
seed the caller supplies instead of the literal 42. -/
noncomputable def initialize_parameters_seeded (cf : ℕ → ℕ → ℕ → List ℕ)
    (seed : ℕ) {N D : ℕ} (data : Matrix (Fin N) (Fin D) ℝ) (K : ℕ) :
    GmmParams D K :=
  let idx : List ℕ := cf seed N K
  { weights := fun _ => 1 / (K : ℝ)
    means := fun k d =>
      if h : idx.getD k.val 0 < N then data ⟨idx.getD k.val 0, h⟩ d else 0
    covariances := fun _ => npCov data }

/-! Helper lemmas shared by the claim theorems. -/

/-- The source density evaluator is nonnegative in the real model: the
numerator is an exponential and the denominator a square root. -/
lemma multivariate_gaussian_nonneg {D : ℕ} (x mean : Fin D → ℝ)
    (cov : Matrix (Fin D) (Fin D) ℝ) : 0 ≤ multivariate_gaussian x mean cov :=
  div_nonneg (Real.exp_pos _).le (Real.sqrt_nonneg _)

/-- With a positive determinant the source density evaluator is positive. -/
lemma multivariate_gaussian_pos {D : ℕ} (x mean : Fin D → ℝ)
    (cov : Matrix (Fin D) (Fin D) ℝ) (h : 0 < cov.det) :
    0 < multivariate_gaussian x mean cov := by
  refine div_pos (Real.exp_pos _) (Real.sqrt_pos.mpr ?_)
  have h2 : (0 : ℝ) < (2 * Real.pi) ^ D :=
    pow_pos (by positivity) D
  exact mul_pos h2 h

/-- The gmm_step loop executes exactly its fuel: the body has no break. -/
lemma gmm_loop_count {N D K : ℕ} (data : Matrix (Fin N) (Fin D) ℝ) :
    ∀ (m : ℕ) (p : GmmParams D K), (gmm_loop data m p).2 = m := by
  intro m
  induction m with
  | zero => intro p; rfl
  | succ m ih => intro p; simp [gmm_loop, ih]

/-- The parameter component of the gmm_step loop is the iterate of the E/M
body. -/
lemma gmm_loop_params {N D K : ℕ} (data : Matrix (Fin N) (Fin D) ℝ) :
    ∀ (m : ℕ) (p : GmmParams D K), (gmm_loop data m p).1 = (emStep data)^[m] p := by
  intro m
  induction m with
  | zero => intro p; rfl
  | succ m ih =>
    intro p
    simp [gmm_loop, ih, Function.iterate_succ_apply]

/-- The coin_probabilities loop executes at most its fuel. -/
lemma coin_loop_count_le {R F C : ℕ} (data : Matrix (Fin R) (Fin F) ℕ)
    (num_flips : ℕ) (tolerance : ℝ) :
    ∀ (m : ℕ) (bp : (Fin C → ℝ) × (Fin C → ℝ)) (prev : Option ℝ),
      (coin_loop data num_flips tolerance m bp prev).2 ≤ m := by
  intro m
  induction m with
  | zero => intro bp prev; exact le_rfl
  | succ m ih =>
    intro bp prev
    by_cases h : prev.elim False
        (fun q => |log_likelihood data num_flips
          (coinStep data num_flips bp).1 (coinStep data num_flips bp).2 - q| < tolerance)
    · simp [coin_loop, h]
    · simp only [coin_loop, h, if_false]
      exact Nat.succ_le_succ (ih _ _)

/-! Claim theorems. -/

/-- Claim C1: with mixture weights (nonnegative per the data model) and a
positive per-point normalizer, the E-step entry (n, k) equals
weight_k times the Gaussian density of point n under component k divided by
the sum over components of those products, every entry lies in [0, 1], and
every row sums to 1. -/
theorem claim_C1_e_step_responsibilities {N D K : ℕ}
    (data : Matrix (Fin N) (Fin D) ℝ) (weights : Fin K → ℝ)
    (means : Fin K → Fin D → ℝ) (covariance : Fin K → Matrix (Fin D) (Fin D) ℝ)
    (hw : ∀ k, 0 ≤ weights k)
    (hpos : ∀ n, 0 < ∑ j, weights j *
      multivariate_gaussian (data n) (means j) (covariance j)) :
    (∀ n k, e_step data weights means covariance n k =
        weights k * multivariate_gaussian (data n) (means k) (covariance k) /
          ∑ j, weights j * multivariate_gaussian (data n) (means j) (covariance j)) ∧
    (∀ n k, 0 ≤ e_step data weights means covariance n k ∧
        e_step data weights means covariance n k ≤ 1) ∧
    (∀ n, ∑ k, e_step data weights means covariance n k = 1) := by
  have hterm : ∀ (n : Fin N) (k : Fin K),
      0 ≤ weights k * multivariate_gaussian (data n) (means k) (covariance k) :=
    fun n k => mul_nonneg (hw k) (multivariate_gaussian_nonneg _ _ _)
  refine ⟨fun n k => rfl, fun n k => ⟨?_, ?_⟩, fun n => ?_⟩
  · exact div_nonneg (hterm n k) (hpos n).le
  · refine (div_le_one (hpos n)).mpr ?_
    exact Finset.single_le_sum (fun j _ => hterm n j) (Finset.mem_univ k)
  · rw [show (∑ k, e_step data weights means covariance n k) =
        (∑ k, weights k * multivariate_gaussian (data n) (means k) (covariance k)) /
          ∑ j, weights j * multivariate_gaussian (data n) (means j) (covariance j)
      from (Finset.sum_div _ _ _).symm]
    exact div_self (hpos n).ne'

/-- Witness for claim C1 at a one-point, one-component, one-dimensional
input with weight 1, mean 0 and unit covariance. -/
theorem claim_C1_witness :
    ((∀ k : Fin 1, 0 ≤ (fun _ : Fin 1 => (1 : ℝ)) k) ∧
      (∀ n : Fin 1, 0 < ∑ j : Fin 1, (fun _ : Fin 1 => (1 : ℝ)) j *
        multivariate_gaussian ((!![0] : Matrix (Fin 1) (Fin 1) ℝ) n)
          ((fun _ : Fin 1 => fun _ : Fin 1 => (0 : ℝ)) j)
          ((fun _ : Fin 1 => (!![1] : Matrix (Fin 1) (Fin 1) ℝ)) j))) ∧
    (∀ n, ∑ k, e_step (!![0] : Matrix (Fin 1) (Fin 1) ℝ)
        (fun _ : Fin 1 => (1 : ℝ)) (fun _ _ => 0) (fun _ => !![1]) n k = 1) := by
  have hw : ∀ k : Fin 1, 0 ≤ (fun _ : Fin 1 => (1 : ℝ)) k := fun _ => zero_le_one
  have hpos : ∀ n : Fin 1, 0 < ∑ j : Fin 1, (fun _ : Fin 1 => (1 : ℝ)) j *
      multivariate_gaussian ((!![0] : Matrix (Fin 1) (Fin 1) ℝ) n)
        ((fun _ : Fin 1 => fun _ : Fin 1 => (0 : ℝ)) j)
        ((fun _ : Fin 1 => (!![1] : Matrix (Fin 1) (Fin 1) ℝ)) j) := by
    intro n
    rw [Fin.sum_univ_one]
    have hdet : (0 : ℝ) < (!![1] : Matrix (Fin 1) (Fin 1) ℝ).det := by
      rw [Matrix.det_fin_one]
      norm_num
    simpa using multivariate_gaussian_pos _ _ _ hdet
  exact ⟨⟨hw, hpos⟩,
    (claim_C1_e_step_responsibilities !![0] (fun _ => 1) (fun _ _ => 0)
      (fun _ => !![1]) hw hpos).2.2⟩

/-- Claim C2: with every effective count nonzero, the M-step returns
weight_k = n_k / N, mean_k = (sum of responsibility times point) / n_k, and
covariance_k the weighted outer-product scatter divided by n_k, where the
mean inside the scatter is the freshly updated mean of the same M-step. -/
theorem claim_C2_m_step_formulas {N D K : ℕ} (data : Matrix (Fin N) (Fin D) ℝ)
    (prior_pi : Matrix (Fin N) (Fin K) ℝ)
    (hn : ∀ k, (∑ n, prior_pi n k) ≠ 0) :
    ∀ k : Fin K,
      (m_step data prior_pi).weights k = (∑ n, prior_pi n k) / N ∧
      (∀ d, (m_step data prior_pi).means k d =
        (∑ n, prior_pi n k * data n d) / ∑ n, prior_pi n k) ∧
      (∀ a b, (m_step data prior_pi).covariances k a b =
        (∑ n, prior_pi n k *
          ((data n a - (m_step data prior_pi).means k a) *
            (data n b - (m_step data prior_pi).means k b))) /
          ∑ n, prior_pi n k) := by
  intro k
  refine ⟨rfl, fun d => rfl, fun a b => ?_⟩
  show (∑ n, (data n a - (m_step data prior_pi).means k a) * prior_pi n k *
      (data n b - (m_step data prior_pi).means k b)) / (∑ n, prior_pi n k) = _
  congr 1
  exact Finset.sum_congr rfl fun n _ => by ring

/-- Witness for claim C2 at a one-point, one-component, one-dimensional
input with responsibility 1. -/
theorem claim_C2_witness :
    ((∀ k : Fin 1, (∑ n : Fin 1, (!![1] : Matrix (Fin 1) (Fin 1) ℝ) n k) ≠ 0) ∧
      ∀ k : Fin 1, (m_step (!![2] : Matrix (Fin 1) (Fin 1) ℝ) !![1]).weights k =
        (∑ n : Fin 1, (!![1] : Matrix (Fin 1) (Fin 1) ℝ) n k) / ((1 : ℕ) : ℝ)) := by
  have hn : ∀ k : Fin 1, (∑ n : Fin 1, (!![1] : Matrix (Fin 1) (Fin 1) ℝ) n k) ≠ 0 := by
    intro k
    fin_cases k <;> simp
  exact ⟨hn, fun k => (claim_C2_m_step_formulas !![2] !![1] hn k).1⟩

/-- Claim C7: applied to a responsibility matrix with entries in [0, 1]
(the data-model type of a responsibility matrix), rows summing to 1, and
positive column masses, and with at least one component, the M-step output
has nonnegative weights summing to exactly 1, and every covariance matrix
is symmetric with nonnegative diagonal. -/
theorem claim_C7_m_step_invariants {N D K : ℕ} (data : Matrix (Fin N) (Fin D) ℝ)
    (prior_pi : Matrix (Fin N) (Fin K) ℝ) (hK : 0 < K)
    (hr : ∀ n k, 0 ≤ prior_pi n k)
    (hrow : ∀ n, ∑ k, prior_pi n k = 1)
    (hcol : ∀ k, 0 < ∑ n, prior_pi n k) :
    (∀ k, 0 ≤ (m_step data prior_pi).weights k) ∧
    (∑ k, (m_step data prior_pi).weights k) = 1 ∧
    (∀ k a b, (m_step data prior_pi).covariances k a b =
      (m_step data prior_pi).covariances k b a) ∧
    (∀ k d, 0 ≤ (m_step data prior_pi).covariances k d d) := by
  have hN : (0 : ℝ) < N := by
    have h0 := hcol ⟨0, hK⟩
    rcases Nat.eq_zero_or_pos N with hz | hp
    · subst hz
      simp at h0
    · exact_mod_cast hp
  refine ⟨fun k => div_nonneg (hcol k).le hN.le, ?_, fun k a b => ?_, fun k d => ?_⟩
  · show (∑ k, (∑ n, prior_pi n k) / (N : ℝ)) = 1
    rw [← Finset.sum_div, Finset.sum_comm]
    rw [show (∑ n : Fin N, ∑ k, prior_pi n k) = ∑ n : Fin N, (1 : ℝ) from
      Finset.sum_congr rfl fun n _ => hrow n]
    simp [div_self hN.ne']
  · show (∑ n, (data n a - (m_step data prior_pi).means k a) * prior_pi n k *
        (data n b - (m_step data prior_pi).means k b)) / (∑ n, prior_pi n k) =
      (∑ n, (data n b - (m_step data prior_pi).means k b) * prior_pi n k *
        (data n a - (m_step data prior_pi).means k a)) / (∑ n, prior_pi n k)
    congr 1
    exact Finset.sum_congr rfl fun n _ => by ring
  · show 0 ≤ (∑ n, (data n d - (m_step data prior_pi).means k d) * prior_pi n k *
        (data n d - (m_step data prior_pi).means k d)) / (∑ n, prior_pi n k)
    refine div_nonneg (Finset.sum_nonneg fun n _ => ?_) (hcol k).le
    have := mul_nonneg (hr n k)
      (mul_self_nonneg (data n d - (m_step data prior_pi).means k d))
    nlinarith [this]

/-- Witness for claim C7 at a one-point, one-component, one-dimensional
input with responsibility 1. -/
theorem claim_C7_witness :
    ((0 : ℕ) < 1 ∧ (∀ n k : Fin 1, 0 ≤ (!![1] : Matrix (Fin 1) (Fin 1) ℝ) n k) ∧
      (∀ n : Fin 1, ∑ k : Fin 1, (!![1] : Matrix (Fin 1) (Fin 1) ℝ) n k = 1) ∧
      (∀ k : Fin 1, 0 < ∑ n : Fin 1, (!![1] : Matrix (Fin 1) (Fin 1) ℝ) n k)) ∧
    (∑ k, (m_step (!![5] : Matrix (Fin 1) (Fin 1) ℝ) !![1]).weights k) = 1 := by
  have hr : ∀ n k : Fin 1, 0 ≤ (!![1] : Matrix (Fin 1) (Fin 1) ℝ) n k := by
    intro n k
    fin_cases n <;> fin_cases k <;> norm_num
  have hrow : ∀ n : Fin 1, ∑ k : Fin 1, (!![1] : Matrix (Fin 1) (Fin 1) ℝ) n k = 1 := by
    intro n
    fin_cases n <;> simp
  have hcol : ∀ k : Fin 1, 0 < ∑ n : Fin 1, (!![1] : Matrix (Fin 1) (Fin 1) ℝ) n k := by
    intro k
    fin_cases k <;> simp
  exact ⟨⟨one_pos, hr, hrow, hcol⟩,
    (claim_C7_m_step_invariants !![5] !![1] one_pos hr hrow hcol).2.1⟩

/-- Counterexample to claim C3: at covariance [[-1]] the determinant is
nonpositive, yet the source evaluator does not fail with a
NumericalDegeneracy condition: it unconditionally evaluates
exp(...) / sqrt((2 pi)^D * det), which NumPy silently returns as NaN and
which the real-valued model (sqrt of a negative is 0, division by 0 is 0)
returns as the plain value 0, while the spec-side evaluator fails. -/
theorem claim_C3_counterexample :
    (!![-1] : Matrix (Fin 1) (Fin 1) ℝ).det ≤ 0 ∧
    multivariate_gaussianE ![0] ![0] (!![-1] : Matrix (Fin 1) (Fin 1) ℝ) =
      Except.ok 0 ∧
    density_spec ![0] ![0] (!![-1] : Matrix (Fin 1) (Fin 1) ℝ) =
      Except.error GmmError.numericalDegeneracy := by
  have hdet : (!![-1] : Matrix (Fin 1) (Fin 1) ℝ).det = -1 := by
    rw [Matrix.det_fin_one]
    norm_num
  have hle : (!![-1] : Matrix (Fin 1) (Fin 1) ℝ).det ≤ 0 := by
    rw [hdet]
    norm_num
  refine ⟨hle, ?_, ?_⟩
  · unfold multivariate_gaussianE multivariate_gaussian
    have harg : (2 * Real.pi) ^ (1 : ℕ) *
        (!![-1] : Matrix (Fin 1) (Fin 1) ℝ).det ≤ 0 := by
      rw [hdet]
      have := Real.pi_pos
      nlinarith
    have hs : Real.sqrt ((2 * Real.pi) ^ (1 : ℕ) *
        (!![-1] : Matrix (Fin 1) (Fin 1) ℝ).det) = 0 :=
      Real.sqrt_eq_zero'.mpr harg
    simp only [hs, div_zero]
  · unfold density_spec
    rw [if_pos hle]

/-- Claim C3 amended: with a positive determinant the source evaluator
returns the nonnegative real (2 pi)^(-D/2) det^(-1/2) exp(-(1/2)
Mahalanobis), agreeing with the spec-side evaluator; when the determinant
is nonpositive, the source performs no check and evaluates the same
unguarded expression (NaN in NumPy), so only the positive-determinant part
of the claim holds. -/
theorem claim_C3_density_formula {D : ℕ} (x mean : Fin D → ℝ)
    (cov : Matrix (Fin D) (Fin D) ℝ) (hdet : 0 < cov.det) :
    multivariate_gaussian x mean cov =
      (2 * Real.pi) ^ (-(D : ℝ) / 2) * cov.det ^ (-(1 : ℝ) / 2) *
        Real.exp (-(1 / 2) * ((x - mean) ⬝ᵥ (cov⁻¹ *ᵥ (x - mean)))) ∧
    0 ≤ multivariate_gaussian x mean cov ∧
    density_spec x mean cov = Except.ok (multivariate_gaussian x mean cov) := by
  have h2pi : (0 : ℝ) ≤ 2 * Real.pi := by positivity
  have hpow : (0 : ℝ) ≤ (2 * Real.pi) ^ D := pow_nonneg h2pi D
  have key : Real.sqrt ((2 * Real.pi) ^ D * cov.det) =
      (2 * Real.pi) ^ ((D : ℝ) / 2) * cov.det ^ ((1 : ℝ) / 2) := by
    rw [Real.sqrt_eq_rpow, Real.mul_rpow hpow hdet.le,
      ← Real.rpow_natCast (2 * Real.pi) D, ← Real.rpow_mul h2pi]
    congr 1
    rw [mul_one_div]
  have formula : multivariate_gaussian x mean cov =
      (2 * Real.pi) ^ (-(D : ℝ) / 2) * cov.det ^ (-(1 : ℝ) / 2) *
        Real.exp (-(1 / 2) * ((x - mean) ⬝ᵥ (cov⁻¹ *ᵥ (x - mean)))) := by
    unfold multivariate_gaussian
    rw [key, div_eq_mul_inv, mul_inv, neg_div, neg_div,
      Real.rpow_neg h2pi, Real.rpow_neg hdet.le]
    ring
  refine ⟨formula, multivariate_gaussian_nonneg _ _ _, ?_⟩
  unfold density_spec
  rw [if_neg (not_le.mpr hdet), formula]

/-- Witness for the amended claim C3 at the unit covariance in one
dimension, whose determinant is positive. -/
theorem claim_C3_witness :
    (0 : ℝ) < (!![1] : Matrix (Fin 1) (Fin 1) ℝ).det ∧
    density_spec ![0] ![0] (!![1] : Matrix (Fin 1) (Fin 1) ℝ) =
      Except.ok (multivariate_gaussian ![0] ![0] (!![1] : Matrix (Fin 1) (Fin 1) ℝ)) := by
  have hdet : (0 : ℝ) < (!![1] : Matrix (Fin 1) (Fin 1) ℝ).det := by
    rw [Matrix.det_fin_one]
    norm_num
  exact ⟨hdet, (claim_C3_density_formula ![0] ![0] !![1] hdet).2.2⟩

/-- Counterexample to claim C6: for the one-point dataset [[3]] and the
responsibility matrix [[1, 0]], component 1 has effective mass
n_1 = 0, yet the source M-step neither fails with ComponentCollapse nor
re-seeds the component: it silently divides, returning the unguarded
quotients (0/0, which NumPy reports as NaN and the real-valued model as 0),
while the spec-side M-step fails.  The re-seed policy would have produced
the data point 3 as the mean; the source produces 0/0 instead. -/
theorem claim_C6_counterexample :
    (∑ n : Fin 1, (!![1, 0] : Matrix (Fin 1) (Fin 2) ℝ) n 1) = 0 ∧
    m_stepE (!![3] : Matrix (Fin 1) (Fin 1) ℝ) !![1, 0] =
      Except.ok (m_step !![3] !![1, 0]) ∧
    m_step_spec (!![3] : Matrix (Fin 1) (Fin 1) ℝ) !![1, 0] =
      Except.error GmmError.componentCollapse ∧
    (∀ d, (m_step (!![3] : Matrix (Fin 1) (Fin 1) ℝ) !![1, 0]).means 1 d = 0) ∧
    (m_step (!![3] : Matrix (Fin 1) (Fin 1) ℝ) !![1, 0]).weights 1 = 0 := by
  have hzero : (∑ n : Fin 1, (!![1, 0] : Matrix (Fin 1) (Fin 2) ℝ) n 1) = 0 := by
    simp
  refine ⟨hzero, rfl, ?_, fun d => ?_, ?_⟩
  · unfold m_step_spec
    rw [if_pos ⟨1, hzero⟩]
  · show (∑ n : Fin 1, (!![1, 0] : Matrix (Fin 1) (Fin 2) ℝ) n 1 *
        (!![3] : Matrix (Fin 1) (Fin 1) ℝ) n d) /
      (∑ n : Fin 1, (!![1, 0] : Matrix (Fin 1) (Fin 2) ℝ) n 1) = 0
    rw [hzero, div_zero]
  · show (∑ n : Fin 1, (!![1, 0] : Matrix (Fin 1) (Fin 2) ℝ) n 1) / ((1 : ℕ) : ℝ) = 0
    rw [hzero, zero_div]

/-- Claim C6 amended: the source M-step divides by n_k unconditionally.
When a component mass n_k is zero the returned weight is 0 and the mean and
covariance of that component are the unguarded quotients with denominator
0 (NaN in NumPy; 0 under the division convention of the real model); no
ComponentCollapse failure and no re-seeding exists, and the result is
always returned to the caller as a plain value. -/
theorem claim_C6_m_step_divides_silently {N D K : ℕ}
    (data : Matrix (Fin N) (Fin D) ℝ) (prior_pi : Matrix (Fin N) (Fin K) ℝ)
    (k : Fin K) (h : (∑ n, prior_pi n k) = 0) :
    m_stepE data prior_pi = Except.ok (m_step data prior_pi) ∧
    (m_step data prior_pi).weights k = 0 ∧
    (∀ d, (m_step data prior_pi).means k d = 0) ∧
    (m_step data prior_pi).covariances k = 0 := by
  refine ⟨rfl, ?_, fun d => ?_, ?_⟩
  · show (∑ n, prior_pi n k) / (N : ℝ) = 0
    rw [h, zero_div]
  · show (∑ n, prior_pi n k * data n d) / (∑ n, prior_pi n k) = 0
    rw [h, div_zero]
  · funext a b
    show (∑ n, (data n a - (m_step data prior_pi).means k a) * prior_pi n k *
        (data n b - (m_step data prior_pi).means k b)) / (∑ n, prior_pi n k) = 0
    rw [h, div_zero]

/-- Witness for the amended claim C6 at the concrete zero-mass input. -/
theorem claim_C6_witness :
    (∑ n : Fin 1, (!![1, 0] : Matrix (Fin 1) (Fin 2) ℝ) n 1) = 0 ∧
    (m_step (!![3] : Matrix (Fin 1) (Fin 1) ℝ) !![1, 0]).covariances 1 = 0 := by
  have hzero : (∑ n : Fin 1, (!![1, 0] : Matrix (Fin 1) (Fin 2) ℝ) n 1) = 0 := by
    simp
  exact ⟨hzero, (claim_C6_m_step_divides_silently !![3] !![1, 0] 1 hzero).2.2.2⟩

/-- Claim C10: the fit is a deterministic function of its arguments.  The
initializer begins with np.random.seed(42), a fixed internal constant, so
it discards whatever global RNG state the caller left behind and every run
with the same arguments selects the same means; the rest of the pipeline is
deterministic arithmetic.  Stated over the state-threaded embedding: the
result is independent of the incoming RNG state. -/
theorem claim_C10_fit_deterministic (cf : ℕ → ℕ → ℕ → List ℕ) {N D : ℕ}
    (data : Matrix (Fin N) (Fin D) ℝ) (K maxIters : ℕ) (s₁ s₂ : ℕ) :
    initialize_parameters cf s₁ data K = initialize_parameters cf 42 data K ∧
    gmm_step cf s₁ data K maxIters = gmm_step cf s₂ data K maxIters :=
  ⟨rfl, rfl⟩

/-- Claim C5 amended: the source fit performs no input validation at all.
For every dataset, every component count (including K = 0, the
representable instance of K at most 0, and K larger than N) and every
iteration budget, gmm_step simply runs its full loop; there is no
InvalidInput rejection.  (The K larger than N case aborts only because
np.random.choice itself raises a library ValueError, not by a check of
this code.) -/
theorem claim_C5_no_input_validation (cf : ℕ → ℕ → ℕ → List ℕ) (state : ℕ)
    {N D : ℕ} (data : Matrix (Fin N) (Fin D) ℝ) (K maxIters : ℕ) :
    (gmm_step cf state data K maxIters).2 = maxIters :=
  gmm_loop_count data maxIters _

/-- Counterexample to claim C5: calling the fit on a one-point dataset with
K = 0 (a component count at most 0, hence invalid per the claim) is not
rejected: the driver executes all 3 requested E/M iterations and returns
a (degenerate, zero-component) parameter record. -/
theorem claim_C5_counterexample :
    ¬ 0 < (0 : ℕ) ∧
    (gmm_step (fun _ _ k => List.range k) 0
      (!![0] : Matrix (Fin 1) (Fin 1) ℝ) 0 3).2 = 3 :=
  ⟨by norm_num, gmm_loop_count _ 3 _⟩

/-- An RNG-choice model whose selection genuinely depends on the seed:
seed 42 selects indices [0, ..., k-1] and seed 1 shifts them by 1.  It
witnesses that the source initializer is insensitive to any seed a caller
could try to supply. -/
def cfSeedSensitive : ℕ → ℕ → ℕ → List ℕ :=
  fun seed _ k => (List.range k).map (fun i => i + seed % 2)

/-- The two-point one-dimensional dataset [[0], [2]] used by the concrete
counterexamples. -/
noncomputable def dataTwoPoints : Matrix (Fin 2) (Fin 1) ℝ := !![0; 2]

/-- Counterexample to claim C8: the mean selection is not driven by a
caller-supplied seed.  Under an RNG model whose selection depends on the
seed, the source initializer invoked with incoming global state 1 (or 999)
produces exactly the selection of the hard-coded internal seed 42 and
differs from the selection a threaded caller seed of 1 would produce. -/
theorem claim_C8_counterexample :
    initialize_parameters cfSeedSensitive 1 dataTwoPoints 1 =
      initialize_parameters_seeded cfSeedSensitive 42 dataTwoPoints 1 ∧
    initialize_parameters cfSeedSensitive 1 dataTwoPoints 1 =
      initialize_parameters cfSeedSensitive 999 dataTwoPoints 1 ∧
    initialize_parameters cfSeedSensitive 1 dataTwoPoints 1 ≠
      initialize_parameters_seeded cfSeedSensitive 1 dataTwoPoints 1 := by
  refine ⟨rfl, rfl, fun h => ?_⟩
  have hm := congrArg (fun p : GmmParams 1 1 => p.means 0 0) h
  norm_num [initialize_parameters, initialize_parameters_seeded,
    cfSeedSensitive, dataTwoPoints, List.range_succ] at hm

/-- Claim C8 amended: under the numpy contract for
np.random.choice(N, K, replace=False) in the state seeded by 42 (K distinct
in-range indices), initialization returns K means that are dataset points
at pairwise distinct indices, sets every covariance to the dataset global
(sample) covariance, and sets every weight to 1/K.  However the selection
is driven by the fixed internal constant 42 through the global NumPy
generator, reseeded on every call: there is no caller-supplied seed
parameter, and the incoming global state is ignored. -/
theorem claim_C8_initialization (cf : ℕ → ℕ → ℕ → List ℕ) (state : ℕ)
    {N D : ℕ} (data : Matrix (Fin N) (Fin D) ℝ) (K : ℕ)
    (hlen : (cf 42 N K).length = K) (hnodup : (cf 42 N K).Nodup)
    (hlt : ∀ i ∈ cf 42 N K, i < N) :
    (∃ idx : Fin K → Fin N, Function.Injective idx ∧
      ∀ k d, (initialize_parameters cf state data K).means k d = data (idx k) d) ∧
    (∀ k, (initialize_parameters cf state data K).covariances k = npCov data) ∧
    (∀ k, (initialize_parameters cf state data K).weights k = 1 / (K : ℝ)) ∧
    (∀ s, initialize_parameters cf s data K = initialize_parameters cf 42 data K) := by
  refine ⟨?_, fun k => rfl, fun k => rfl, fun s => rfl⟩
  have hpos : ∀ k : Fin K, (k : ℕ) < (cf 42 N K).length := by
    intro k
    rw [hlen]
    exact k.isLt
  refine ⟨fun k => ⟨(cf 42 N K).get ⟨k, hpos k⟩,
    hlt _ (List.get_mem _ _ (hpos k))⟩, ?_, ?_⟩
  · intro k₁ k₂ hk
    have hv : (cf 42 N K).get ⟨k₁, hpos k₁⟩ = (cf 42 N K).get ⟨k₂, hpos k₂⟩ := by
      exact congrArg Fin.val hk
    have hinj := List.nodup_iff_injective_get.mp hnodup hv
    have hval : (k₁ : ℕ) = (k₂ : ℕ) := by simpa using hinj
    exact Fin.ext hval
  · intro k d
    show (if h : (cf 42 N K).getD k.val 0 < N then
        data ⟨(cf 42 N K).getD k.val 0, h⟩ d else 0) = _
    rw [List.getD_eq_get (cf 42 N K) 0 (hpos k)]
    rw [dif_pos (hlt _ (List.get_mem _ _ (hpos k)))]

/-- Witness for the amended claim C8 with the seed-sensitive RNG model on
the two-point dataset with K = 2: seed 42 selects [0, 1], which has length
2, no duplicates, and in-range entries. -/
theorem claim_C8_witness :
    ((cfSeedSensitive 42 2 2).length = 2 ∧ (cfSeedSensitive 42 2 2).Nodup ∧
      (∀ i ∈ cfSeedSensitive 42 2 2, i < 2)) ∧
    (∀ k : Fin 2, (initialize_parameters cfSeedSensitive 7 dataTwoPoints 2).weights k =
      1 / ((2 : ℕ) : ℝ)) := by
  have hlen : (cfSeedSensitive 42 2 2).length = 2 := by decide
  have hnodup : (cfSeedSensitive 42 2 2).Nodup := by decide
  have hlt : ∀ i ∈ cfSeedSensitive 42 2 2, i < 2 := by decide
  exact ⟨⟨hlen, hnodup, hlt⟩,
    (claim_C8_initialization cfSeedSensitive 7 dataTwoPoints 2 hlen hnodup hlt).2.2.1⟩

/-! Concrete evaluation helpers for the gmm_step counterexample: on the
dataset [[0], [2]] with one component, the E/M body reaches a fixed point
after the first iteration. -/

/-- The parameters produced by initialize_parameters on dataTwoPoints with
one component and the cfSeedSensitive RNG model: weight 1, mean the first
data point 0, covariance the sample covariance 2. -/
noncomputable def startParams : GmmParams 1 1 :=
  ⟨fun _ => 1, fun _ _ => 0, fun _ => fun _ _ => 2⟩

/-- The fixed point of the E/M body on dataTwoPoints: weight 1, mean 1,
covariance 1. -/
noncomputable def fixedParams : GmmParams 1 1 :=
  ⟨fun _ => 1, fun _ _ => 1, fun _ => fun _ _ => 1⟩

/-- With a single component whose unnormalized responsibility is nonzero,
the E-step normalizes every entry to exactly 1. -/
lemma e_step_single_component {N D : ℕ} (data : Matrix (Fin N) (Fin D) ℝ)
    (weights : Fin 1 → ℝ) (means : Fin 1 → Fin D → ℝ)
    (covariance : Fin 1 → Matrix (Fin D) (Fin D) ℝ)
    (h : ∀ n, weights 0 *
      multivariate_gaussian (data n) (means 0) (covariance 0) ≠ 0) :
    e_step data weights means covariance = fun _ _ => 1 := by
  funext n k
  have hk : k = 0 := Subsingleton.elim k 0
  subst hk
  show (weights 0 * multivariate_gaussian (data n) (means 0) (covariance 0)) /
      (∑ j : Fin 1, weights j *
        multivariate_gaussian (data n) (means j) (covariance j)) = 1
  rw [Fin.sum_univ_one]
  exact div_self (h n)

/-- The all-ones one-component responsibility matrix on two points. -/
noncomputable def onesResp : Matrix (Fin 2) (Fin 1) ℝ := fun _ _ => 1

/-- The M-step on dataTwoPoints with the all-ones responsibility matrix
returns weight 1, mean 1, covariance 1. -/
lemma m_step_ones_dataTwoPoints :
    m_step dataTwoPoints onesResp = fixedParams := by
  have hmean : ∀ d, (m_step dataTwoPoints onesResp).means 0 d = 1 := by
    intro d
    show (∑ n : Fin 2, onesResp n 0 * dataTwoPoints n d) /
      (∑ n : Fin 2, onesResp n 0) = 1
    have hd : d = 0 := Subsingleton.elim d 0
    subst hd
    rw [Fin.sum_univ_two, Fin.sum_univ_two]
    norm_num [dataTwoPoints, onesResp]
  refine GmmParams.ext ?_ ?_ ?_
  · funext k
    show (∑ n : Fin 2, onesResp n k) / ((2 : ℕ) : ℝ) = 1
    rw [Fin.sum_univ_two]
    norm_num [onesResp]
  · funext k d
    have hk : k = 0 := Subsingleton.elim k 0
    subst hk
    exact hmean d
  · funext k a b
    have hk : k = 0 := Subsingleton.elim k 0
    have ha : a = 0 := Subsingleton.elim a 0
    have hb : b = 0 := Subsingleton.elim b 0
    subst hk
    subst ha
    subst hb
    show (∑ n : Fin 2,
        (dataTwoPoints n 0 - (m_step dataTwoPoints onesResp).means 0 0) * onesResp n 0 *
          (dataTwoPoints n 0 - (m_step dataTwoPoints onesResp).means 0 0)) /
      (∑ n : Fin 2, onesResp n 0) = 1
    rw [hmean 0, Fin.sum_univ_two, Fin.sum_univ_two]
    norm_num [dataTwoPoints, onesResp]

/-- initialize_parameters on dataTwoPoints with one component under the
cfSeedSensitive RNG model evaluates to startParams. -/
lemma init_dataTwoPoints :
    initialize_parameters cfSeedSensitive 0 dataTwoPoints 1 = startParams := by
  refine GmmParams.ext ?_ ?_ ?_
  · funext k
    show 1 / ((1 : ℕ) : ℝ) = 1
    norm_num
  · funext k d
    have hk : k = 0 := Subsingleton.elim k 0
    have hd : d = 0 := Subsingleton.elim d 0
    subst hk
    subst hd
    show (if h : (cfSeedSensitive 42 2 1).getD 0 0 < 2 then
        dataTwoPoints ⟨(cfSeedSensitive 42 2 1).getD 0 0, h⟩ 0 else 0) = startParams.means 0 0
    norm_num [cfSeedSensitive, dataTwoPoints, startParams]
  · funext k a b
    have hk : k = 0 := Subsingleton.elim k 0
    have ha : a = 0 := Subsingleton.elim a 0
    have hb : b = 0 := Subsingleton.elim b 0
    subst hk
    subst ha
    subst hb
    show (∑ n : Fin 2, (dataTwoPoints n 0 - (∑ m : Fin 2, dataTwoPoints m 0) / ((2 : ℕ) : ℝ)) *
        (dataTwoPoints n 0 - (∑ m : Fin 2, dataTwoPoints m 0) / ((2 : ℕ) : ℝ))) /
        (((2 : ℕ) : ℝ) - 1) = startParams.covariances 0 0 0
    rw [Fin.sum_univ_two, Fin.sum_univ_two]
    norm_num [dataTwoPoints, startParams]

/-- One E/M iteration moves startParams to fixedParams. -/
lemma emStep_startParams : emStep dataTwoPoints startParams = fixedParams := by
  unfold emStep
  rw [e_step_single_component dataTwoPoints _ _ _ ?_]
  · exact m_step_ones_dataTwoPoints
  intro n
  have hdet : (0 : ℝ) < (startParams.covariances 0).det := by
    rw [Matrix.det_fin_one]
    show (0 : ℝ) < 2
    norm_num
  have := multivariate_gaussian_pos (dataTwoPoints n) (startParams.means 0)
    (startParams.covariances 0) hdet
  show startParams.weights 0 * _ ≠ 0
  have hw : startParams.weights 0 = 1 := rfl
  rw [hw, one_mul]
  exact this.ne'

/-- fixedParams is a fixed point of the E/M iteration on dataTwoPoints. -/
lemma emStep_fixedParams : emStep dataTwoPoints fixedParams = fixedParams := by
  unfold emStep
  rw [e_step_single_component dataTwoPoints _ _ _ ?_]
  · exact m_step_ones_dataTwoPoints
  intro n
  have hdet : (0 : ℝ) < (fixedParams.covariances 0).det := by
    rw [Matrix.det_fin_one]
    show (0 : ℝ) < 1
    norm_num
  have := multivariate_gaussian_pos (dataTwoPoints n) (fixedParams.means 0)
    (fixedParams.covariances 0) hdet
  show fixedParams.weights 0 * _ ≠ 0
  have hw : fixedParams.weights 0 = 1 := rfl
  rw [hw, one_mul]
  exact this.ne'

/-- Counterexample to claim C4: on the dataset [[0], [2]] with one
component, the parameters after iteration 2 equal the parameters after
iteration 1, so successive parameter values (hence successive
log-likelihood values) differ by zero, below every positive tolerance; yet
the GMM driver, asked for 4 iterations, executes all 4 instead of stopping
early with Converged — it has no tolerance parameter and no convergence
check at all. -/
theorem claim_C4_counterexample :
    (emStep dataTwoPoints)^[2]
        (initialize_parameters cfSeedSensitive 0 dataTwoPoints 1) =
      (emStep dataTwoPoints)^[1]
        (initialize_parameters cfSeedSensitive 0 dataTwoPoints 1) ∧
    (gmm_step cfSeedSensitive 0 dataTwoPoints 1 4).2 = 4 := by
  constructor
  · rw [init_dataTwoPoints]
    show emStep dataTwoPoints (emStep dataTwoPoints startParams) =
      emStep dataTwoPoints startParams
    rw [emStep_startParams, emStep_fixedParams]
  · exact gmm_loop_count _ 4 _

open scoped Classical in
/-- Claim C4 amended: the GMM driver gmm_step performs exactly its
max_iters iterations for every input — it accepts no tolerance and never
stops early.  The tolerance-based stop exists only in the coin-flip driver:
its loop executes at most max_iter iterations, and returns immediately
(one iteration for the current call) as soon as the updated log-likelihood
differs from the previous one by less than the tolerance. -/
theorem claim_C4_stop_conditions (cf : ℕ → ℕ → ℕ → List ℕ) (state : ℕ)
    {N D : ℕ} (gdata : Matrix (Fin N) (Fin D) ℝ) (K maxIters : ℕ)
    {R F C : ℕ} (cdata : Matrix (Fin R) (Fin F) ℕ) (num_flips : ℕ)
    (tolerance q : ℝ) (bp : (Fin C → ℝ) × (Fin C → ℝ)) (fuel : ℕ)
    (h : |log_likelihood cdata num_flips (coinStep cdata num_flips bp).1
      (coinStep cdata num_flips bp).2 - q| < tolerance) :
    (gmm_step cf state gdata K maxIters).2 = maxIters ∧
    (coin_loop cdata num_flips tolerance fuel bp none).2 ≤ fuel ∧
    coin_loop cdata num_flips tolerance (fuel + 1) bp (some q) =
      (coinStep cdata num_flips bp, 1) := by
  refine ⟨gmm_loop_count _ _ _, coin_loop_count_le _ _ _ _ _ _, ?_⟩
  show (if (some q).elim False (fun q' =>
      |log_likelihood cdata num_flips (coinStep cdata num_flips bp).1
        (coinStep cdata num_flips bp).2 - q'| < tolerance)
    then (coinStep cdata num_flips bp, 1)
    else
      let r := coin_loop cdata num_flips tolerance fuel (coinStep cdata num_flips bp)
        (some (log_likelihood cdata num_flips (coinStep cdata num_flips bp).1
          (coinStep cdata num_flips bp).2))
      (r.1, r.2 + 1)) = (coinStep cdata num_flips bp, 1)
  exact if_pos h

/-- One row of one coin flip that came up heads: concrete coin data for
the amended C4 witness. -/
def coinData : Matrix (Fin 1) (Fin 1) ℕ := !![1]

/-- Concrete single-coin parameters (bias one half, prior 1) for the
amended C4 witness. -/
noncomputable def coinBp : (Fin 1 → ℝ) × (Fin 1 → ℝ) :=
  (fun _ => 1 / 2, fun _ => 1)

/-- Witness for the amended claim C4: the tolerance hypothesis is
discharged by taking the previous log-likelihood equal to the updated one,
whose successive difference 0 is below the tolerance 1. -/
theorem claim_C4_witness :
    |log_likelihood coinData 1 (coinStep coinData 1 coinBp).1
        (coinStep coinData 1 coinBp).2 -
      log_likelihood coinData 1 (coinStep coinData 1 coinBp).1
        (coinStep coinData 1 coinBp).2| < 1 ∧
    (gmm_step cfSeedSensitive 0 dataTwoPoints 1 2).2 = 2 ∧
    coin_loop coinData 1 1 3 coinBp
        (some (log_likelihood coinData 1 (coinStep coinData 1 coinBp).1
          (coinStep coinData 1 coinBp).2)) =
      (coinStep coinData 1 coinBp, 1) := by
  have h : |log_likelihood coinData 1 (coinStep coinData 1 coinBp).1
        (coinStep coinData 1 coinBp).2 -
      log_likelihood coinData 1 (coinStep coinData 1 coinBp).1
        (coinStep coinData 1 coinBp).2| < 1 := by
    rw [sub_self, abs_zero]
    norm_num
  have hmain := claim_C4_stop_conditions cfSeedSensitive 0 dataTwoPoints 1 2
    coinData 1 1
    (log_likelihood coinData 1 (coinStep coinData 1 coinBp).1
      (coinStep coinData 1 coinBp).2) coinBp 2 h
  exact ⟨h, hmain.1, hmain.2.2⟩

end GmmEm
